import Mathlib

/-
Verification development for the product-chatbot service layer.

The Python service code is shallowly embedded: Python floats are modelled as
rationals extended with infinities and NaN, Python values that flow through
json parsing as the inductive type PyVal, raising code as Except PyExn, and
CPython string/regex behaviour as explicit recursive functions (ASCII
fragment; the concrete inputs exercised here are ASCII).
-/

set_option maxRecDepth 8000

/-- Model of a CPython float: a finite rational or one of the special values. -/
inductive PyFloat where
  | finite (q : ℚ)
  | inf
  | ninf
  | nan
deriving DecidableEq

/-- Model of a Python value as produced by json.loads and passed around the
service layer. Dicts are association lists with insertion order, unique keys
maintained by dictSet. -/
inductive PyVal where
  | none
  | bool (b : Bool)
  | int (n : ℤ)
  | float (f : PyFloat)
  | str (s : String)
  | list (elems : List PyVal)
  | dict (entries : List (String × PyVal))

/-- The Python exceptions the embedded code can raise. -/
inductive PyExn where
  | httpStatusError
  | attributeError
  | typeError
  | runtimeError
deriving DecidableEq

/-- The shape of the dict returned by NLPService.analyze_message and both of
its producers: keys intent, entity, criteria. -/
structure IntentResult where
  intent : String
  entity : Option String
  criteria : Option (List (String × PyVal))

/-- Python dict read d.get(k): value at the key, if present. -/
def dictGet : List (String × PyVal) → String → Option PyVal
  | [], _ => Option.none
  | (k, v) :: rest, key => if k = key then some v else dictGet rest key

/-- Python dict write d[k] = v: replace the value in place if the key exists,
else append (insertion order preserved). -/
def dictSet : List (String × PyVal) → String → PyVal → List (String × PyVal)
  | [], key, v => [(key, v)]
  | (k, v') :: rest, key, v =>
    if k = key then (k, v) :: rest else (k, v') :: dictSet rest key v

def braceOpen : Char := '\x7b'

def braceClose : Char := '\x7d'

/-- The whitespace characters stripped by str.strip and matched by regex
backslash-s (ASCII fragment of CPython's set). -/
def pyIsSpace (c : Char) : Bool :=
  c = ' ' || c = '\t' || c = '\n' || c = '\r' || c = '\x0b' || c = '\x0c'

/-- Regex word character (ASCII fragment of backslash-w). -/
def isWordChar (c : Char) : Bool :=
  c.isAlpha || c.isDigit || c = '_'

/-- The character class of word char, whitespace or hyphen used by the
fallback regexes. -/
def classWSH (c : Char) : Bool :=
  isWordChar c || pyIsSpace c || c = '-'

/-- The character class of word char or whitespace used by the category
regexes. -/
def classWS (c : Char) : Bool :=
  isWordChar c || pyIsSpace c

/-- str.strip on a character list: drop leading and trailing whitespace. -/
def pyStripList (cs : List Char) : List Char :=
  ((cs.dropWhile pyIsSpace).reverse.dropWhile pyIsSpace).reverse

/-- Python str.strip (ASCII whitespace model). -/
def pyStrip (s : String) : String :=
  String.mk (pyStripList s.data)

/-- Python str.lower (ASCII model). -/
def pyLower (s : String) : String :=
  String.mk (s.data.map Char.toLower)

/-- Digit string to natural number. -/
def digitsToNat (ds : List Char) : ℕ :=
  ds.foldl (fun a c => 10 * a + (c.toNat - '0'.toNat)) 0

/-- Ten to a natural power, as a rational. -/
def pow10 (n : ℕ) : ℚ :=
  (10 : ℚ) ^ n

/-- Numeric value of integer digits, fraction digits and a decimal exponent. -/
def decimalVal (neg : Bool) (ds fs : List Char) (e : ℤ) : ℚ :=
  let base : ℚ := (digitsToNat ds : ℚ) + (digitsToNat fs : ℚ) / pow10 fs.length
  let scaled : ℚ := if 0 ≤ e then base * pow10 e.toNat else base / pow10 (-e).toNat
  if neg then -scaled else scaled

/-- Model of CPython float(str) on its decimal grammar: optional surrounding
whitespace, optional sign, then inf, infinity, nan (case-insensitive) or
digits with optional fraction and exponent. Returns Option.none where the
CPython call raises ValueError. -/
def pyFloatOfString (s : String) : Option PyFloat :=
  let cs := pyStripList (s.data.map Char.toLower)
  let (neg, cs1) :=
    match cs with
    | c :: r => if c = '-' then (true, r) else if c = '+' then (false, r) else (false, cs)
    | [] => (false, cs)
  if cs1 = "inf".data || cs1 = "infinity".data then
    some (if neg then PyFloat.ninf else PyFloat.inf)
  else if cs1 = "nan".data then
    some PyFloat.nan
  else
    let ds := cs1.takeWhile Char.isDigit
    let r1 := cs1.dropWhile Char.isDigit
    let (fs, r2) :=
      match r1 with
      | '.' :: r => (r.takeWhile Char.isDigit, r.dropWhile Char.isDigit)
      | _ => ([], r1)
    if ds.isEmpty && fs.isEmpty then Option.none
    else
      match r2 with
      | [] => some (PyFloat.finite (decimalVal neg ds fs 0))
      | c :: r3 =>
        if c = 'e' then
          let (esgn, r4) :=
            match r3 with
            | d :: rr =>
              if d = '-' then ((-1 : ℤ), rr)
              else if d = '+' then ((1 : ℤ), rr)
              else ((1 : ℤ), r3)
            | [] => ((1 : ℤ), r3)
          let es := r4.takeWhile Char.isDigit
          if es.isEmpty || !(r4.dropWhile Char.isDigit).isEmpty then Option.none
          else some (PyFloat.finite (decimalVal neg ds fs (esgn * (digitsToNat es : ℤ))))
        else Option.none

/-- Model of the CPython float(x) constructor on PyVal arguments: numbers and
bools convert, strings go through the decimal grammar, everything else raises
(modelled as Option.none, since the caller catches every exception). -/
def pyFloatCoerce : PyVal → Option PyFloat
  | PyVal.bool b => some (PyFloat.finite (if b then 1 else 0))
  | PyVal.int n => some (PyFloat.finite (n : ℚ))
  | PyVal.float f => some f
  | PyVal.str s => pyFloatOfString s
  | _ => Option.none

/-- The six intent values accepted by the normalizer. -/
def sixIntents : List String :=
  ["price_query", "availability", "rating_filter", "review_request", "category_query", "unknown"]

/-- Intent clamping step of _normalize_parsed. -/
def normIntent (kvs : List (String × PyVal)) : String :=
  match (dictGet kvs "intent").getD (PyVal.str "unknown") with
  | PyVal.str s => if sixIntents.contains s then s else "unknown"
  | _ => "unknown"

/-- Entity trimming step of _normalize_parsed: entity.strip() or None. -/
def normEntity (kvs : List (String × PyVal)) : Option String :=
  match (dictGet kvs "entity").getD PyVal.none with
  | PyVal.str s =>
    let t := pyStrip s
    if t = "" then Option.none else some t
  | _ => Option.none

/-- Criteria step of _normalize_parsed: keep criteria only if it is a dict;
when the dict is truthy and holds min_rating, coerce that value with float,
storing null when the coercion raises. -/
def normCriteria (kvs : List (String × PyVal)) : Option (List (String × PyVal)) :=
  match (dictGet kvs "criteria").getD PyVal.none with
  | PyVal.dict cs =>
    if cs.isEmpty then some cs
    else
      match dictGet cs "min_rating" with
      | some v =>
        some (dictSet cs "min_rating"
          (match pyFloatCoerce v with
           | some f => PyVal.float f
           | Option.none => PyVal.none))
      | Option.none => some cs
  | _ => Option.none

/-- NLPService._normalize_parsed. Calling .get on a non-dict raises
AttributeError, which the model propagates. -/
def normalizeParsed : PyVal → Except PyExn IntentResult
  | PyVal.dict kvs => Except.ok ⟨normIntent kvs, normEntity kvs, normCriteria kvs⟩
  | _ => Except.error PyExn.attributeError

/-- Does the literal needle occur at the very start of hay? -/
def litMatch : List Char → List Char → Bool
  | [], _ => true
  | _ :: _, [] => false
  | c :: cs, d :: ds => c == d && litMatch cs ds

/-- Python substring containment needle in hay (the str in operator). -/
def subSearch (needle : List Char) : List Char → Bool
  | [] => litMatch needle []
  | c :: rest => litMatch needle (c :: rest) || subSearch needle rest

/-- Python str in str. -/
def strContainsSub (needle hay : String) : Bool :=
  subSearch needle.data hay.data

/-- re.search position scan: try the pattern at each start position, leftmost
match wins. (The final, empty position can never start a match for the
patterns modelled here, all of which require at least one character.) -/
def reSearch {α : Type} (tryAt : List Char → Option α) : List Char → Option α
  | [] => Option.none
  | c :: rest =>
    match tryAt (c :: rest) with
    | some v => some v
    | Option.none => reSearch tryAt rest

/-- Ordered alternation of literal keywords followed by a continuation, with
regex backtracking: if a keyword matches but the continuation fails, the next
alternative is tried at the same position. -/
def kwContTry {α : Type} (cont : List Char → Option α) : List (List Char) → List Char → Option α
  | [], _ => Option.none
  | kw :: rest, text =>
    if litMatch kw text then
      match cont (text.drop kw.length) with
      | some v => some v
      | Option.none => kwContTry cont rest text
    else kwContTry cont rest text

/-- Tail of the entity-capturing fallback regexes: one-or-more whitespace,
then a greedy one-or-more capture over cls, then an optional question mark
(which never constrains the capture). Backtracking semantics: the whitespace
run is maximal; if the character after it is not in cls the whitespace gives
back one character, so a lone whitespace character is captured when at least
two whitespace characters precede a non-cls character. -/
def entityTail (cls : Char → Bool) (rest : List Char) : Option (List Char) :=
  let w := rest.takeWhile pyIsSpace
  if w.isEmpty then Option.none
  else
    let after := rest.drop w.length
    let run := after.takeWhile cls
    if !run.isEmpty then some run
    else if 2 ≤ w.length then
      match w.getLast? with
      | some c => some [c]
      | Option.none => Option.none
    else Option.none

/-- Alternatives of the price regex, in source order. -/
def priceKws : List (List Char) :=
  ["price of".data, "price for".data, "how much is".data,
   "what's the price of".data, "what is the price of".data]

/-- Alternatives of the availability regex, in source order. -/
def availKws : List (List Char) :=
  ["do you have".data, "have any".data, "in stock".data, "available".data]

/-- Alternatives of the review regex, expanded in backtracking order of the
optional plural and the for/about alternation. -/
def reviewKws : List (List Char) :=
  ["reviews for".data, "reviews about".data, "review for".data, "review about".data,
   "opinions for".data, "opinions about".data, "opinion for".data, "opinion about".data]

/-- Alternatives of the category regex, in source order. -/
def categoryKws : List (List Char) :=
  ["show me".data, "list".data, "find".data, "browse".data]

/-- Alternatives of the rating regex, expanded in backtracking order of the
optional plural and the comparator alternation. -/
def ratingKws : List (List Char) :=
  ["ratings above".data, "ratings over".data, "ratings greater than".data, "ratings >=".data,
   "rating above".data, "rating over".data, "rating greater than".data, "rating >=".data]

/-- Tail of the rating regex after the comparator: zero-or-more whitespace
(backtracking cannot help, digits are not whitespace), then digits with an
optional greedy fraction. Returns the captured number's exact value, fusing
the capture with the float conversion the source applies to it. -/
def ratingNumTail (rest : List Char) : Option ℚ :=
  let after := rest.dropWhile pyIsSpace
  let ds := after.takeWhile Char.isDigit
  if ds.isEmpty then Option.none
  else
    match after.drop ds.length with
    | '.' :: r3 =>
      let fs := r3.takeWhile Char.isDigit
      if fs.isEmpty then some (digitsToNat ds : ℚ)
      else some ((digitsToNat ds : ℚ) + (digitsToNat fs : ℚ) / pow10 fs.length)
    | _ => some (digitsToNat ds : ℚ)

/-- Tail after a connective in the nearby-category regex: one-or-more
whitespace then the literal rating. -/
def connTailMatch (rest : List Char) : Bool :=
  let w := rest.takeWhile pyIsSpace
  !w.isEmpty && litMatch "rating".data (rest.drop w.length)

/-- One-or-more whitespace, a with/having/that-have alternative, then
whitespace and the literal rating; the whitespace before an alternative is
maximal since no alternative starts with whitespace. -/
def catRestMatch (rest : List Char) : Bool :=
  let w := rest.takeWhile pyIsSpace
  if w.isEmpty then false
  else
    let after := rest.drop w.length
    (litMatch "with".data after && connTailMatch (after.drop 4)) ||
    (litMatch "having".data after && connTailMatch (after.drop 6)) ||
    (litMatch "that have".data after && connTailMatch (after.drop 9))

/-- Lazy one-or-more capture over word chars and whitespace: grow the capture
one character at a time, stopping at the first point where the rest of the
pattern matches. -/
def lazyGroup (acc : List Char) : List Char → Option (List Char)
  | [] => Option.none
  | c :: rest =>
    if classWS c then
      let acc2 := acc ++ [c]
      if catRestMatch rest then some acc2 else lazyGroup acc2 rest
    else Option.none

/-- Greedy one-or-more whitespace before the lazy capture: try the maximal
whitespace run first, then shorter runs. -/
def catTryW (rest : List Char) : ℕ → Option (List Char)
  | 0 => Option.none
  | w + 1 =>
    match lazyGroup [] (rest.drop (w + 1)) with
    | some g => some g
    | Option.none => catTryW rest w

def catAfterKw (rest : List Char) : Option (List Char) :=
  catTryW rest (rest.takeWhile pyIsSpace).length

/-- The nearby-category regex of the rating rule: show me/list/find, then
whitespace, a lazy word-and-space capture, and with/having/that-have rating. -/
def ratingCatSearch (text : List Char) : Option (List Char) :=
  reSearch (kwContTry catAfterKw ["show me".data, "list".data, "find".data]) text

/-- The category keyword set checked against the captured candidate. -/
def commonCategories : List String :=
  ["electronics", "fragrances", "groceries", "laptops", "smartphones", "skincare", "home"]

/-- NLPService._local_fallback_parser on the lower-cased stripped text:
rules tried in source order, first match wins. -/
def fallbackOnText (text : List Char) : IntentResult :=
  match reSearch (kwContTry (entityTail classWSH) priceKws) text with
  | some g => ⟨"price_query", some (pyStrip (String.mk g)), Option.none⟩
  | Option.none =>
  match reSearch (kwContTry ratingNumTail ratingKws) text with
  | some val =>
    let cat := (ratingCatSearch text).map (fun g => pyStrip (String.mk g))
    ⟨"rating_filter", cat, some [("min_rating", PyVal.float (PyFloat.finite val))]⟩
  | Option.none =>
  match reSearch (kwContTry (entityTail classWSH) availKws) text with
  | some g => ⟨"availability", some (pyStrip (String.mk g)), Option.none⟩
  | Option.none =>
  match reSearch (kwContTry (entityTail classWSH) reviewKws) text with
  | some g => ⟨"review_request", some (pyStrip (String.mk g)), Option.none⟩
  | Option.none =>
  match reSearch (kwContTry (entityTail classWS) categoryKws) text with
  | some g =>
    let candidate := pyStrip (String.mk g)
    if commonCategories.any (fun c => strContainsSub c candidate) then
      ⟨"category_query", some candidate, Option.none⟩
    else ⟨"unknown", Option.none, Option.none⟩
  | Option.none => ⟨"unknown", Option.none, Option.none⟩

/-- NLPService._local_fallback_parser: text = message.lower().strip(), then
the rule cascade. -/
def localFallbackParser (message : String) : IntentResult :=
  fallbackOnText (pyStripList ((pyLower message).data))

/-- Whitespace skipped by the json module between tokens. -/
def jsonWsChar (c : Char) : Bool :=
  c = ' ' || c = '\t' || c = '\n' || c = '\r'

def hexVal (c : Char) : Option ℕ :=
  if c.isDigit then some (c.toNat - '0'.toNat)
  else if 'a' ≤ c ∧ c ≤ 'f' then some (c.toNat - 'a'.toNat + 10)
  else if 'A' ≤ c ∧ c ≤ 'F' then some (c.toNat - 'A'.toNat + 10)
  else Option.none

/-- JSON string body after the opening quote: standard escapes, strict
rejection of unescaped control characters. -/
def parseJStrAux : ℕ → List Char → List Char → Option (String × List Char)
  | 0, _, _ => Option.none
  | fuel + 1, acc, cs =>
    match cs with
    | [] => Option.none
    | c :: rest =>
      if c = '"' then some (String.mk acc.reverse, rest)
      else if c = '\\' then
        match rest with
        | [] => Option.none
        | e :: r2 =>
          if e = '"' then parseJStrAux fuel ('"' :: acc) r2
          else if e = '\\' then parseJStrAux fuel ('\\' :: acc) r2
          else if e = '/' then parseJStrAux fuel ('/' :: acc) r2
          else if e = 'b' then parseJStrAux fuel ('\x08' :: acc) r2
          else if e = 'f' then parseJStrAux fuel ('\x0c' :: acc) r2
          else if e = 'n' then parseJStrAux fuel ('\n' :: acc) r2
          else if e = 'r' then parseJStrAux fuel ('\r' :: acc) r2
          else if e = 't' then parseJStrAux fuel ('\t' :: acc) r2
          else if e = 'u' then
            match r2 with
            | h1 :: h2 :: h3 :: h4 :: r3 =>
              match hexVal h1, hexVal h2, hexVal h3, hexVal h4 with
              | some a, some b, some c2, some d =>
                parseJStrAux fuel (Char.ofNat (((a * 16 + b) * 16 + c2) * 16 + d) :: acc) r3
              | _, _, _, _ => Option.none
            | _ => Option.none
          else Option.none
      else if c.toNat < 32 then Option.none
      else parseJStrAux fuel (c :: acc) rest

/-- Exponent suffix of a JSON number, if present and well formed. -/
def jnumExp (rest : List Char) : Option (ℤ × List Char) :=
  match rest with
  | c :: r =>
    if c = 'e' || c = 'E' then
      let (sgn, r2) :=
        match r with
        | s :: rr =>
          if s = '+' then ((1 : ℤ), rr)
          else if s = '-' then ((-1 : ℤ), rr)
          else ((1 : ℤ), r)
        | [] => ((1 : ℤ), r)
      let es := r2.takeWhile Char.isDigit
      if es.isEmpty then Option.none
      else some (sgn * (digitsToNat es : ℤ), r2.dropWhile Char.isDigit)
    else Option.none
  | [] => Option.none

/-- Continue a JSON number after its integer digits: optional fraction and
exponent decide int versus float, as in the json module. -/
def jnumAfterInt (neg : Bool) (ds : List Char) (rest : List Char) : Option (PyVal × List Char) :=
  match rest with
  | '.' :: r2 =>
    let fs := r2.takeWhile Char.isDigit
    if fs.isEmpty then Option.none
    else
      let r3 := r2.dropWhile Char.isDigit
      match jnumExp r3 with
      | some (e, r4) => some (PyVal.float (PyFloat.finite (decimalVal neg ds fs e)), r4)
      | Option.none => some (PyVal.float (PyFloat.finite (decimalVal neg ds fs 0)), r3)
  | _ =>
    match jnumExp rest with
    | some (e, r4) => some (PyVal.float (PyFloat.finite (decimalVal neg ds [] e)), r4)
    | Option.none =>
      some (PyVal.int ((if neg then -1 else 1) * (digitsToNat ds : ℤ)), rest)

/-- A JSON number: optional minus, no leading zeros. -/
def parseJNum (cs : List Char) : Option (PyVal × List Char) :=
  let (neg, cs1) :=
    match cs with
    | c :: r => if c = '-' then (true, r) else (false, cs)
    | [] => (false, cs)
  match cs1 with
  | [] => Option.none
  | c :: r =>
    if c = '0' then jnumAfterInt neg [c] r
    else if c.isDigit then
      jnumAfterInt neg (c :: r.takeWhile Char.isDigit) (r.dropWhile Char.isDigit)
    else Option.none

mutual

/-- One JSON value, fuel-bounded recursive descent over the json module's
grammar (without its NaN/Infinity literal extension, which no theorem here
relies on). -/
def parseJVal : ℕ → List Char → Option (PyVal × List Char)
  | 0, _ => Option.none
  | fuel + 1, cs =>
    let cs1 := cs.dropWhile jsonWsChar
    match cs1 with
    | [] => Option.none
    | c :: rest =>
      if c = braceOpen then parseJObjBody fuel rest []
      else if c = '[' then parseJArrBody fuel rest []
      else if c = '"' then
        match parseJStrAux (fuel + 1) [] rest with
        | some (s, r2) => some (PyVal.str s, r2)
        | Option.none => Option.none
      else if litMatch "true".data cs1 then some (PyVal.bool true, cs1.drop 4)
      else if litMatch "false".data cs1 then some (PyVal.bool false, cs1.drop 5)
      else if litMatch "null".data cs1 then some (PyVal.none, cs1.drop 4)
      else parseJNum cs1

/-- JSON object members after the opening brace; duplicate keys overwrite in
place like Python dict insertion. -/
def parseJObjBody : ℕ → List Char → List (String × PyVal) → Option (PyVal × List Char)
  | 0, _, _ => Option.none
  | fuel + 1, cs, acc =>
    let cs1 := cs.dropWhile jsonWsChar
    match cs1 with
    | [] => Option.none
    | c :: rest =>
      if acc.isEmpty && c = braceClose then some (PyVal.dict [], rest)
      else if c = '"' then
        match parseJStrAux (fuel + 1) [] rest with
        | some (k, r2) =>
          match r2.dropWhile jsonWsChar with
          | ':' :: r4 =>
            match parseJVal fuel r4 with
            | some (v, r5) =>
              (match r5.dropWhile jsonWsChar with
               | ',' :: r7 => parseJObjBody fuel r7 (dictSet acc k v)
               | d :: r7 =>
                 if d = braceClose then some (PyVal.dict (dictSet acc k v), r7)
                 else Option.none
               | [] => Option.none)
            | Option.none => Option.none
          | _ => Option.none
        | Option.none => Option.none
      else Option.none

/-- JSON array elements after the opening bracket. -/
def parseJArrBody : ℕ → List Char → List PyVal → Option (PyVal × List Char)
  | 0, _, _ => Option.none
  | fuel + 1, cs, acc =>
    let cs1 := cs.dropWhile jsonWsChar
    match cs1 with
    | [] => Option.none
    | c :: _ =>
      if acc.isEmpty && c = ']' then some (PyVal.list [], cs1.drop 1)
      else
        match parseJVal fuel cs1 with
        | some (v, r2) =>
          (match r2.dropWhile jsonWsChar with
           | ',' :: r4 => parseJArrBody fuel r4 (acc ++ [v])
           | d :: r4 => if d = ']' then some (PyVal.list (acc ++ [v]), r4) else Option.none
           | [] => Option.none)
        | Option.none => Option.none

end

/-- json.loads: one value, whitespace allowed around it, nothing after. -/
def jsonLoads (s : String) : Option PyVal :=
  match parseJVal (s.length + 2) s.data with
  | some (v, rest) => if (rest.dropWhile jsonWsChar).isEmpty then some v else Option.none
  | Option.none => Option.none

/-- The source's extraction regex (open brace, greedy any-character run,
close brace) as a position scan: at the first open brace that has some close
brace after it, the greedy run backtracks to the last close brace of the
text. -/
def greedyBraceSearch : List Char → Option (List Char)
  | [] => Option.none
  | c :: rest =>
    if c = braceOpen then
      let tail := (rest.reverse.dropWhile (fun d => !(d = braceClose))).reverse
      if tail.isEmpty then greedyBraceSearch rest else some (c :: tail)
    else greedyBraceSearch rest

/-- Amended-specification wording of the same extraction: the span from the
first open brace to the last close brace of the text, when the latter comes
after the former. -/
def specGreedySpan (cs : List Char) : Option (List Char) :=
  match cs.dropWhile (fun c => !(c = braceOpen)) with
  | [] => Option.none
  | b :: rest =>
    let tail := (rest.reverse.dropWhile (fun d => !(d = braceClose))).reverse
    if tail.isEmpty then Option.none else some (b :: tail)

/-- Depth scan for the balanced-span reading: collect characters from an open
brace until the matching close brace. The depth argument counts currently
open braces and starts at 1. -/
def balancedScan : List Char → ℕ → List Char → Option (List Char)
  | [], _, _ => Option.none
  | c :: rest, depth, acc =>
    if c = braceOpen then balancedScan rest (depth + 1) (c :: acc)
    else if c = braceClose then
      if depth = 1 then some (c :: acc).reverse
      else balancedScan rest (depth - 1) (c :: acc)
    else balancedScan rest depth (c :: acc)

/-- Modelled from the claim's words: the first balanced top-level brace
delimited substring of the text. -/
def specBalancedSpan (cs : List Char) : Option (List Char) :=
  match cs.dropWhile (fun c => !(c = braceOpen)) with
  | [] => Option.none
  | b :: rest => balancedScan rest 1 [b]

/-- NLPService._safe_parse_result: parse the whole text, else parse the
extracted brace span; json decoding failures yield Option.none, while
normalization of a non-dict raises out of the function. -/
def safeParseResult (raw : String) : Except PyExn (Option IntentResult) :=
  match jsonLoads raw with
  | some parsed => (normalizeParsed parsed).map some
  | Option.none =>
    match greedyBraceSearch raw.data with
    | Option.none => Except.ok Option.none
    | some span =>
      match jsonLoads (String.mk span) with
      | some parsed => (normalizeParsed parsed).map some
      | Option.none => Except.ok Option.none

/-- Modelled from the claim's words: as safeParseResult, but extracting the
first balanced top-level brace span. -/
def claimedSafeParseResult (raw : String) : Except PyExn (Option IntentResult) :=
  match jsonLoads raw with
  | some parsed => (normalizeParsed parsed).map some
  | Option.none =>
    match specBalancedSpan raw.data with
    | Option.none => Except.ok Option.none
    | some span =>
      match jsonLoads (String.mk span) with
      | some parsed => (normalizeParsed parsed).map some
      | Option.none => Except.ok Option.none

/-- Amended-specification wording of the parse pipeline: whole text first,
else the first-open-brace-to-last-close-brace span. -/
def amendedSafeParseResult (raw : String) : Except PyExn (Option IntentResult) :=
  match jsonLoads raw with
  | some parsed => (normalizeParsed parsed).map some
  | Option.none =>
    match specGreedySpan raw.data with
    | Option.none => Except.ok Option.none
    | some span =>
      match jsonLoads (String.mk span) with
      | some parsed => (normalizeParsed parsed).map some
      | Option.none => Except.ok Option.none

/-- NLPService.analyze_message, with the outcome of the primary model call
abstracted as an Except value: the try block runs the call and the parse,
any exception falls through to the local parser, and a parsed result is kept
only when its intent is not unknown. -/
def analyzeMessage (primary : Except PyExn String) (message : String) : Except PyExn IntentResult :=
  match primary.bind safeParseResult with
  | Except.ok (some parsed) =>
    if parsed.intent = "unknown" then Except.ok (localFallbackParser message)
    else Except.ok parsed
  | Except.ok Option.none => Except.ok (localFallbackParser message)
  | Except.error _ => Except.ok (localFallbackParser message)

/-- The attempt loop of NLPService._call_groq_intent_api over an oracle
giving each attempt's outcome. The loop body posts the request, raises
through raise_for_status (no handler inside the loop, so the error leaves
the function) or returns the text; the second component counts HTTP attempts
actually performed. The empty-list case is the RuntimeError after the loop,
unreachable from range(2). -/
def callGroqLoop (oracle : ℕ → Except PyExn String) : List ℕ → ℕ → Except PyExn String × ℕ
  | [], calls => (Except.error PyExn.runtimeError, calls)
  | attempt :: _, calls =>
    match oracle attempt with
    | Except.error e => (Except.error e, calls + 1)
    | Except.ok s => (Except.ok s, calls + 1)

/-- NLPService._call_groq_intent_api: the loop over range(2). -/
def callGroqIntentApi (oracle : ℕ → Except PyExn String) : Except PyExn String × ℕ :=
  callGroqLoop oracle [0, 1] 0

/-- An oracle whose first attempt fails transiently and whose second attempt
would succeed. -/
def transientOracle : ℕ → Except PyExn String
  | 0 => Except.error PyExn.httpStatusError
  | _ => Except.ok "ok"

/-- The catalog record, fields and optionality as in the pydantic model. -/
structure Product where
  id : ℤ
  title : String
  description : String
  price : ℚ
  discountPercentage : Option ℚ := Option.none
  rating : Option ℚ := Option.none
  stock : Option ℤ := Option.none
  brand : Option String := Option.none
  category : Option String := Option.none
  thumbnail : Option String := Option.none
  images : Option (List String) := Option.none

/-- The filter condition of filter_products_by_rating: p.rating and
p.rating >= min_rating, with Python truthiness (None and 0.0 are falsy). -/
def ratingTruthyGeB (minRating : ℚ) (p : Product) : Bool :=
  match p.rating with
  | some r => if r = 0 then false else decide (minRating ≤ r)
  | Option.none => false

/-- ProductService.filter_products_by_rating on an already-fetched listing. -/
def filterProductsByRating (allProducts : List Product) (minRating : ℚ) (limit : ℕ := 5) :
    List Product :=
  (allProducts.filter (ratingTruthyGeB minRating)).take limit

/-- Modelled from the claim's words: retain records whose rating is present
and at least the minimum. -/
def claimedRatingKeepB (minRating : ℚ) (p : Product) : Bool :=
  match p.rating with
  | some r => decide (minRating ≤ r)
  | Option.none => false

/-- Modelled from the claim's words, as amended: rating present, nonzero and
at least the minimum. -/
def amendedRatingKeepB (minRating : ℚ) (p : Product) : Bool :=
  match p.rating with
  | some r => decide (r ≠ 0) && decide (minRating ≤ r)
  | Option.none => false

/-- The claimed filter, for comparison with the code's. -/
def claimedFilterByRating (allProducts : List Product) (minRating : ℚ) (limit : ℕ) :
    List Product :=
  (allProducts.filter (claimedRatingKeepB minRating)).take limit

/-- Python truthiness of a PyVal. -/
def pyTruthy : PyVal → Bool
  | PyVal.none => false
  | PyVal.bool b => b
  | PyVal.int n => decide (n ≠ 0)
  | PyVal.float f =>
    match f with
    | PyFloat.finite q => decide (q ≠ 0)
    | _ => true
  | PyVal.str s => decide (s ≠ "")
  | PyVal.list xs => !xs.isEmpty
  | PyVal.dict kvs => !kvs.isEmpty

/-- The catalog call selected by ResponseService.generate_response's
data-gathering step. -/
inductive GatherAction where
  | findByName (entity : PyVal)
  | filterByRating (minRating : PyVal)
  | noData

/-- Step 1 of ResponseService.generate_response: read intent, entity and
criteria (criteria defaulting to an empty dict only when the key is absent)
and choose the catalog call; calling .get on a null criteria raises
AttributeError. -/
def gatherStrategy (nlpResult : List (String × PyVal)) : Except PyExn GatherAction :=
  let intent := (dictGet nlpResult "intent").getD (PyVal.str "unknown")
  let entity := (dictGet nlpResult "entity").getD PyVal.none
  let criteria := (dictGet nlpResult "criteria").getD (PyVal.dict [])
  let inNameIntents :=
    match intent with
    | PyVal.str s => s = "price_query" || s = "availability" || s = "review_request"
    | _ => false
  if inNameIntents && pyTruthy entity then Except.ok (GatherAction.findByName entity)
  else
    let isRatingFilter :=
      match intent with
      | PyVal.str s => s == "rating_filter"
      | _ => false
    if isRatingFilter then
      match criteria with
      | PyVal.dict kvs =>
        Except.ok (GatherAction.filterByRating
          ((dictGet kvs "min_rating").getD (PyVal.float (PyFloat.finite 4))))
      | _ => Except.error PyExn.attributeError
    else Except.ok GatherAction.noData

/-- The match condition of get_product_by_name for one product, with
short-circuit evaluation: lowercasing a missing category raises
AttributeError only when neither title nor description matched. -/
def productMatchCond (name : String) (p : Product) : Except PyExn Bool :=
  if strContainsSub name (pyLower p.title) then Except.ok true
  else if strContainsSub name (pyLower p.description) then Except.ok true
  else
    match p.category with
    | some c => Except.ok (strContainsSub name (pyLower c))
    | Option.none => Except.error PyExn.attributeError

/-- A Python list comprehension whose condition can raise: conditions are
evaluated left to right and the first exception aborts the whole
comprehension. -/
def exceptFilter (cond : Product → Except PyExn Bool) : List Product → Except PyExn (List Product)
  | [] => Except.ok []
  | p :: rest =>
    match cond p with
    | Except.error e => Except.error e
    | Except.ok true => (exceptFilter cond rest).map (fun ms => p :: ms)
    | Except.ok false => exceptFilter cond rest

/-- ProductService.get_product_by_name on an already-fetched listing. -/
def getProductByName (allProducts : List Product) (name : String) (limit : ℕ := 5) :
    Except PyExn (List Product) :=
  let n := pyStrip (pyLower name)
  (exceptFilter (productMatchCond n) allProducts).map (fun ms => ms.take limit)

/-- A record whose optional category is absent and whose title and
description do not mention phones. -/
def uncategorizedProduct : Product :=
  { id := 7, title := "Widget", description := "A handy widget", price := 3 }

/-- A record that would match a phone search through its title. -/
def smartphoneProduct : Product :=
  { id := 8, title := "Smartphone X", description := "Flagship phone", price := 199,
    rating := some 4, category := some "smartphones" }

/-- A record with rating 0.0. -/
def zeroRatedProduct : Product :=
  { id := 9, title := "Freebie", description := "Free sample", price := 0, rating := some 0 }

/-- Structural validity of an analyze result: the intent is one of the six
enumerated values. (The remaining structure, entity as optional string and
criteria as optional mapping, is enforced by the IntentResult type itself.) -/
def structurallyValidB (r : IntentResult) : Bool :=
  sixIntents.contains r.intent

/-- Entity condition as the claim states it: absent, or non-empty and
trim-invariant. -/
def entityStatedOkB : Option String → Bool
  | Option.none => true
  | some s => !(s == "") && (pyStrip s == s)

/-- Entity condition as amended for the fallback path: absent or
trim-invariant (possibly empty). -/
def entityTrimmedB : Option String → Bool
  | Option.none => true
  | some s => pyStrip s == s

/-- An optional min_rating value that is absent, a finite float, or null. -/
def minRatingValFiniteB : Option PyVal → Bool
  | Option.none => true
  | some (PyVal.float (PyFloat.finite _)) => true
  | some PyVal.none => true
  | some _ => false

/-- An optional min_rating value that is absent, any float, or null. -/
def minRatingValOkB : Option PyVal → Bool
  | Option.none => true
  | some (PyVal.float _) => true
  | some PyVal.none => true
  | some _ => false

/-- The min_rating condition as the claim states it: absent, a finite float,
or null. -/
def minRatingFiniteOkB : Option (List (String × PyVal)) → Bool
  | Option.none => true
  | some kvs => minRatingValFiniteB (dictGet kvs "min_rating")

/-- The min_rating condition as amended: absent, any float (finite or not),
or null. -/
def minRatingFloatOrNoneB : Option (List (String × PyVal)) → Bool
  | Option.none => true
  | some kvs => minRatingValOkB (dictGet kvs "min_rating")

/-- The invariant exactly as the claim states it, for either path. -/
def invariantStatedB (r : IntentResult) : Bool :=
  sixIntents.contains r.intent && entityStatedOkB r.entity && minRatingFiniteOkB r.criteria

/-- The amended invariant guaranteed by the normalizer. -/
def invariantNormB (r : IntentResult) : Bool :=
  sixIntents.contains r.intent && entityStatedOkB r.entity && minRatingFloatOrNoneB r.criteria

/-- The amended invariant guaranteed by the fallback parser: its entity may
be the empty string. -/
def invariantFallbackB (r : IntentResult) : Bool :=
  sixIntents.contains r.intent && entityTrimmedB r.entity && minRatingFloatOrNoneB r.criteria

/-- Already-normalized form, as claim C9 describes it: intent in the
enumeration, entity absent or non-empty and trimmed, and a present
min_rating a float or null. -/
def normalizedFormB (r : IntentResult) : Bool :=
  sixIntents.contains r.intent && entityStatedOkB r.entity && minRatingFloatOrNoneB r.criteria

/-- Re-encode an IntentResult as the Python dict analyze_message returns, to
feed it back to the normalizer. -/
def intentResultToPyVal (r : IntentResult) : PyVal :=
  PyVal.dict
    [("intent", PyVal.str r.intent),
     ("entity", match r.entity with | some s => PyVal.str s | Option.none => PyVal.none),
     ("criteria", match r.criteria with | some kvs => PyVal.dict kvs | Option.none => PyVal.none)]

lemma dropWhile_self_of_head (p : Char → Bool) (l : List Char)
    (h : ∀ c, l.head? = some c → p c = false) : l.dropWhile p = l := by
  cases l with
  | nil => rfl
  | cons x xs =>
    rw [List.dropWhile_cons, h x rfl]
    simp

lemma dropWhile_idem (p : Char → Bool) (l : List Char) :
    (l.dropWhile p).dropWhile p = l.dropWhile p := by
  apply dropWhile_self_of_head
  intro c hc
  have h := List.head?_dropWhile_not p l
  rw [hc] at h
  exact h

lemma exists_append_dropWhile (p : Char → Bool) (l : List Char) :
    ∃ t, t ++ l.dropWhile p = l := by
  induction l with
  | nil => exact ⟨[], rfl⟩
  | cons x xs ih =>
    by_cases h : p x
    · obtain ⟨t, ht⟩ := ih
      exact ⟨x :: t, by simp [List.dropWhile_cons, h, ht]⟩
    · exact ⟨[], by simp [List.dropWhile_cons, h]⟩

lemma head_not_of_dropWhile_self (p : Char → Bool) (l : List Char)
    (h : l.dropWhile p = l) : ∀ c, l.head? = some c → p c = false := by
  intro c hc
  cases l with
  | nil => simp at hc
  | cons x xs =>
    have hxc : x = c := by simpa using hc
    subst hxc
    by_cases hp : p x
    · rw [List.dropWhile_cons, if_pos hp] at h
      have hlen := congrArg List.length h
      have hle : (xs.dropWhile p).length ≤ xs.length := (List.dropWhile_sublist p).length_le
      simp at hlen
      omega
    · simpa using hp

lemma dropWhile_dropTrailing_self (p : Char → Bool) (l : List Char)
    (h : l.dropWhile p = l) :
    ((l.reverse.dropWhile p).reverse).dropWhile p = (l.reverse.dropWhile p).reverse := by
  obtain ⟨t, ht⟩ := exists_append_dropWhile p l.reverse
  have hl : l = (l.reverse.dropWhile p).reverse ++ t.reverse := by
    have h2 := congrArg List.reverse ht
    simpa using h2.symm
  apply dropWhile_self_of_head
  intro c hc
  cases hR : (l.reverse.dropWhile p).reverse with
  | nil => rw [hR] at hc; simp at hc
  | cons y ys =>
    have hcy : c = y := by rw [hR] at hc; simpa using hc.symm
    have hlhead : l.head? = some y := by rw [hl, hR]; simp
    exact hcy ▸ head_not_of_dropWhile_self p l h y hlhead

lemma pyStripList_idem (cs : List Char) : pyStripList (pyStripList cs) = pyStripList cs := by
  have h1 : (pyStripList cs).dropWhile pyIsSpace = pyStripList cs :=
    dropWhile_dropTrailing_self pyIsSpace (cs.dropWhile pyIsSpace) (dropWhile_idem _ _)
  show pyStripList (pyStripList cs) = pyStripList cs
  unfold pyStripList
  rw [show (((cs.dropWhile pyIsSpace).reverse.dropWhile pyIsSpace).reverse.dropWhile pyIsSpace) =
      ((cs.dropWhile pyIsSpace).reverse.dropWhile pyIsSpace).reverse from h1]
  rw [List.reverse_reverse, dropWhile_idem]

lemma pyStrip_idem (s : String) : pyStrip (pyStrip s) = pyStrip s :=
  congrArg String.mk (pyStripList_idem s.data)

lemma dictGet_dictSet_self (kvs : List (String × PyVal)) (k : String) (v : PyVal)
    (h : dictGet kvs k = some v) : dictSet kvs k v = kvs := by
  induction kvs with
  | nil => simp [dictGet] at h
  | cons kv rest ih =>
    obtain ⟨k', v'⟩ := kv
    by_cases hk : k' = k
    · rw [dictGet, if_pos hk] at h
      obtain rfl : v' = v := by simpa using h
      rw [dictSet, if_pos hk]
    · rw [dictGet, if_neg hk] at h
      rw [dictSet, if_neg hk, ih h]

lemma dictGet_dictSet_eq (kvs : List (String × PyVal)) (k : String) (v : PyVal) :
    dictGet (dictSet kvs k v) k = some v := by
  induction kvs with
  | nil => simp [dictSet, dictGet]
  | cons kv rest ih =>
    obtain ⟨k', v'⟩ := kv
    by_cases hk : k' = k
    · rw [dictSet, if_pos hk, dictGet, if_pos hk]
    · rw [dictSet, if_neg hk, dictGet, if_neg hk, ih]


lemma normIntent_mem (kvs : List (String × PyVal)) :
    sixIntents.contains (normIntent kvs) = true := by
  unfold normIntent
  cases hv : (dictGet kvs "intent").getD (PyVal.str "unknown")
  case str s =>
    show sixIntents.contains (if sixIntents.contains s = true then s else "unknown") = true
    by_cases h : sixIntents.contains s
    · rw [if_pos h]
      exact h
    · rw [if_neg h]
      rfl
  all_goals rfl

lemma normEntity_ok (kvs : List (String × PyVal)) :
    entityStatedOkB (normEntity kvs) = true := by
  unfold normEntity
  cases hv : (dictGet kvs "entity").getD PyVal.none
  case str s =>
    show entityStatedOkB (if pyStrip s = "" then Option.none else some (pyStrip s)) = true
    by_cases h : pyStrip s = ""
    · rw [if_pos h]
      rfl
    · rw [if_neg h]
      show (!(pyStrip s == "") && (pyStrip (pyStrip s) == pyStrip s)) = true
      rw [pyStrip_idem]
      simp [h]
  all_goals rfl

lemma normCriteria_min_rating_ok (kvs : List (String × PyVal)) :
    minRatingFloatOrNoneB (normCriteria kvs) = true := by
  unfold normCriteria
  cases hv : (dictGet kvs "criteria").getD PyVal.none
  case dict cs =>
    show minRatingFloatOrNoneB
      (if cs.isEmpty = true then some cs
       else
         match dictGet cs "min_rating" with
         | some v =>
           some (dictSet cs "min_rating"
             (match pyFloatCoerce v with
              | some f => PyVal.float f
              | Option.none => PyVal.none))
         | Option.none => some cs) = true
    by_cases hemp : cs.isEmpty
    · rw [if_pos hemp]
      have hnil : cs = [] := by simpa using hemp
      subst hnil
      rfl
    · rw [if_neg hemp]
      cases hget : dictGet cs "min_rating" with
      | none =>
        show minRatingValOkB (dictGet cs "min_rating") = true
        rw [hget]
        rfl
      | some v =>
        show minRatingValOkB (dictGet (dictSet cs "min_rating"
          (match pyFloatCoerce v with
           | some f => PyVal.float f
           | Option.none => PyVal.none)) "min_rating") = true
        rw [dictGet_dictSet_eq]
        cases pyFloatCoerce v <;> rfl
  all_goals rfl

lemma norm_invariant (p : PyVal) (r : IntentResult) (h : normalizeParsed p = Except.ok r) :
    invariantNormB r = true := by
  cases p with
  | dict kvs =>
    have h2 : (⟨normIntent kvs, normEntity kvs, normCriteria kvs⟩ : IntentResult) = r :=
      Except.ok.inj h
    rw [← h2]
    show ((sixIntents.contains (normIntent kvs) && entityStatedOkB (normEntity kvs)) &&
      minRatingFloatOrNoneB (normCriteria kvs)) = true
    rw [normIntent_mem, normEntity_ok, normCriteria_min_rating_ok]
    rfl
  | none => exact Except.noConfusion h
  | bool b => exact Except.noConfusion h
  | int n => exact Except.noConfusion h
  | float f => exact Except.noConfusion h
  | str s => exact Except.noConfusion h
  | list xs => exact Except.noConfusion h

lemma entityTrimmedB_strip (s : String) : entityTrimmedB (some (pyStrip s)) = true := by
  show (pyStrip (pyStrip s) == pyStrip s) = true
  rw [pyStrip_idem]
  simp

lemma fallbackOnText_invariant (text : List Char) :
    invariantFallbackB (fallbackOnText text) = true := by
  unfold fallbackOnText
  cases h1 : reSearch (kwContTry (entityTail classWSH) priceKws) text with
  | some g =>
    show ((sixIntents.contains "price_query" && entityTrimmedB (some (pyStrip (String.mk g)))) &&
      minRatingFloatOrNoneB Option.none) = true
    rw [entityTrimmedB_strip]
    decide
  | none =>
  cases h2 : reSearch (kwContTry ratingNumTail ratingKws) text with
  | some val =>
    show ((sixIntents.contains "rating_filter" &&
      entityTrimmedB ((ratingCatSearch text).map (fun g => pyStrip (String.mk g)))) &&
      minRatingFloatOrNoneB (some [("min_rating", PyVal.float (PyFloat.finite val))])) = true
    have hmin : minRatingFloatOrNoneB
        (some [("min_rating", PyVal.float (PyFloat.finite val))]) = true := rfl
    rw [hmin]
    cases hc : ratingCatSearch text with
    | none => decide
    | some g =>
      show ((sixIntents.contains "rating_filter" &&
        entityTrimmedB (some (pyStrip (String.mk g)))) && true) = true
      rw [entityTrimmedB_strip]
      decide
  | none =>
  cases h3 : reSearch (kwContTry (entityTail classWSH) availKws) text with
  | some g =>
    show ((sixIntents.contains "availability" && entityTrimmedB (some (pyStrip (String.mk g)))) &&
      minRatingFloatOrNoneB Option.none) = true
    rw [entityTrimmedB_strip]
    decide
  | none =>
  cases h4 : reSearch (kwContTry (entityTail classWSH) reviewKws) text with
  | some g =>
    show ((sixIntents.contains "review_request" && entityTrimmedB (some (pyStrip (String.mk g)))) &&
      minRatingFloatOrNoneB Option.none) = true
    rw [entityTrimmedB_strip]
    decide
  | none =>
  cases h5 : reSearch (kwContTry (entityTail classWS) categoryKws) text with
  | some g =>
    show invariantFallbackB
      (if (commonCategories.any (fun c => strContainsSub c (pyStrip (String.mk g)))) = true then
        (⟨"category_query", some (pyStrip (String.mk g)), Option.none⟩ : IntentResult)
       else ⟨"unknown", Option.none, Option.none⟩) = true
    by_cases hcat : commonCategories.any (fun c => strContainsSub c (pyStrip (String.mk g)))
    · rw [if_pos hcat]
      show ((sixIntents.contains "category_query" &&
        entityTrimmedB (some (pyStrip (String.mk g)))) && minRatingFloatOrNoneB Option.none) = true
      rw [entityTrimmedB_strip]
      decide
    · rw [if_neg hcat]
      decide
  | none =>
    show invariantFallbackB ⟨"unknown", Option.none, Option.none⟩ = true
    decide

lemma fallback_invariant (message : String) :
    invariantFallbackB (localFallbackParser message) = true :=
  fallbackOnText_invariant _

lemma fallback_intent_mem (message : String) :
    sixIntents.contains (localFallbackParser message).intent = true := by
  have h := fallback_invariant message
  unfold invariantFallbackB at h
  rw [Bool.and_eq_true, Bool.and_eq_true] at h
  exact h.1.1

lemma structurallyValid_of_norm (r : IntentResult) (h : invariantNormB r = true) :
    structurallyValidB r = true := by
  unfold invariantNormB at h
  rw [Bool.and_eq_true, Bool.and_eq_true] at h
  exact h.1.1

lemma safeParse_some_invariant (raw : String) (r : IntentResult)
    (h : safeParseResult raw = Except.ok (some r)) : invariantNormB r = true := by
  unfold safeParseResult at h
  cases hj : jsonLoads raw with
  | some parsed =>
    simp only [hj] at h
    cases hn : normalizeParsed parsed with
    | ok r2 =>
      simp only [hn, Except.map] at h
      obtain rfl : r2 = r := Option.some.inj (Except.ok.inj h)
      exact norm_invariant parsed r2 hn
    | error e =>
      simp only [hn, Except.map] at h
      exact Except.noConfusion h
  | none =>
    simp only [hj] at h
    cases hg : greedyBraceSearch raw.data with
    | none =>
      simp only [hg] at h
      exact Option.noConfusion (Except.ok.inj h)
    | some span =>
      simp only [hg] at h
      cases hj2 : jsonLoads (String.mk span) with
      | some parsed =>
        simp only [hj2] at h
        cases hn : normalizeParsed parsed with
        | ok r2 =>
          simp only [hn, Except.map] at h
          obtain rfl : r2 = r := Option.some.inj (Except.ok.inj h)
          exact norm_invariant parsed r2 hn
        | error e =>
          simp only [hn, Except.map] at h
          exact Except.noConfusion h
      | none =>
        simp only [hj2] at h
        exact Option.noConfusion (Except.ok.inj h)

lemma analyzeMessage_ok_eq (raw : String) (message : String) :
    analyzeMessage (Except.ok raw) message =
      match safeParseResult raw with
      | Except.ok (some parsed) =>
        if parsed.intent = "unknown" then Except.ok (localFallbackParser message)
        else Except.ok parsed
      | Except.ok Option.none => Except.ok (localFallbackParser message)
      | Except.error _ => Except.ok (localFallbackParser message) := rfl

lemma greedyBraceSearch_none_of_no_close (cs : List Char)
    (h : ∀ c ∈ cs, (!(c = braceClose)) = true) : greedyBraceSearch cs = Option.none := by
  induction cs with
  | nil => rfl
  | cons c rest ih =>
    have hrest : ∀ d ∈ rest, (!(d = braceClose)) = true :=
      fun d hd => h d (List.mem_cons_of_mem _ hd)
    show (if c = braceOpen then
        if ((rest.reverse.dropWhile (fun d => !(d = braceClose))).reverse).isEmpty = true then
          greedyBraceSearch rest
        else some (c :: (rest.reverse.dropWhile (fun d => !(d = braceClose))).reverse)
      else greedyBraceSearch rest) = Option.none
    have htail : rest.reverse.dropWhile (fun d => !(d = braceClose)) = [] := by
      rw [List.dropWhile_eq_nil_iff]
      intro x hx
      exact hrest x (List.mem_reverse.mp hx)
    by_cases hc : c = braceOpen
    · rw [if_pos hc, htail]
      simp only [List.reverse_nil, List.isEmpty_nil, if_pos]
      exact ih hrest
    · rw [if_neg hc]
      exact ih hrest

lemma greedy_eq_specSpan (cs : List Char) : greedyBraceSearch cs = specGreedySpan cs := by
  induction cs with
  | nil => rfl
  | cons c rest ih =>
    by_cases hc : c = braceOpen
    · show (if c = braceOpen then
          if ((rest.reverse.dropWhile (fun d => !(d = braceClose))).reverse).isEmpty = true then
            greedyBraceSearch rest
          else some (c :: (rest.reverse.dropWhile (fun d => !(d = braceClose))).reverse)
        else greedyBraceSearch rest) = specGreedySpan (c :: rest)
      rw [if_pos hc]
      unfold specGreedySpan
      rw [List.dropWhile_cons]
      have hcond : (!(c = braceOpen)) = false := by simp [hc]
      rw [hcond]
      simp only [Bool.false_eq_true, if_false]
      by_cases htail : ((rest.reverse.dropWhile (fun d => !(d = braceClose))).reverse).isEmpty
      · rw [if_pos htail]
        have hnil : rest.reverse.dropWhile (fun d => !(d = braceClose)) = [] := by
          have := htail
          cases hd : rest.reverse.dropWhile (fun d => !(d = braceClose)) with
          | nil => rfl
          | cons x xs =>
            rw [hd] at this
            simp at this
        have hno : ∀ d ∈ rest, (!(d = braceClose)) = true := by
          intro d hd
          exact List.dropWhile_eq_nil_iff.mp hnil d (List.mem_reverse.mpr hd)
        rw [greedyBraceSearch_none_of_no_close rest hno]
        rw [show (rest.reverse.dropWhile (fun d => !(d = braceClose))).reverse = [] by
          rw [hnil]; rfl]
        rfl
      · rw [if_neg htail]
        cases hd : (rest.reverse.dropWhile (fun d => !(d = braceClose))).reverse with
        | nil => rw [hd] at htail; simp at htail
        | cons x xs => rfl
    · show (if c = braceOpen then
          if ((rest.reverse.dropWhile (fun d => !(d = braceClose))).reverse).isEmpty = true then
            greedyBraceSearch rest
          else some (c :: (rest.reverse.dropWhile (fun d => !(d = braceClose))).reverse)
        else greedyBraceSearch rest) = specGreedySpan (c :: rest)
      rw [if_neg hc]
      unfold specGreedySpan
      rw [List.dropWhile_cons]
      have hcond : (!(c = braceOpen)) = true := by simp [hc]
      rw [hcond]
      simp only [if_true]
      exact ih

/-- C1: the claim says a transient failure of the first primary-model attempt
triggers exactly one further attempt. In the code the loop body has no
exception handler, so the first raise leaves _call_groq_intent_api after a
single HTTP attempt, even though the next attempt would have succeeded; the
error is then caught in analyze_message and the fallback runs. -/
theorem callGroq_single_attempt_then_fallback :
    callGroqIntentApi transientOracle = (Except.error PyExn.httpStatusError, 1) ∧
    transientOracle 1 = Except.ok "ok" ∧
    analyzeMessage (callGroqIntentApi transientOracle).1 "hello" =
      Except.ok (localFallbackParser "hello") :=
  ⟨rfl, rfl, rfl⟩

/-- C2: analyze_message never raises: for every primary outcome and every
message it returns ok with a structurally valid IntentResult, and whenever
the primary call or the parse raises, the returned value is exactly the
local fallback parser's result. -/
theorem analyzeMessage_total_and_structurally_valid
    (primary : Except PyExn String) (message : String) :
    (∃ r, analyzeMessage primary message = Except.ok r ∧ structurallyValidB r = true) ∧
    (∀ e, primary = Except.error e →
      analyzeMessage primary message = Except.ok (localFallbackParser message)) ∧
    (∀ raw e, primary = Except.ok raw → safeParseResult raw = Except.error e →
      analyzeMessage primary message = Except.ok (localFallbackParser message)) := by
  refine ⟨?_, ?_, ?_⟩
  · cases hp : primary with
    | error e =>
      exact ⟨localFallbackParser message, rfl, fallback_intent_mem message⟩
    | ok raw =>
      rw [analyzeMessage_ok_eq]
      cases hs : safeParseResult raw with
      | error e =>
        exact ⟨localFallbackParser message, rfl, fallback_intent_mem message⟩
      | ok o =>
        cases o with
        | none =>
          exact ⟨localFallbackParser message, rfl, fallback_intent_mem message⟩
        | some parsed =>
          by_cases hu : parsed.intent = "unknown"
          · refine ⟨localFallbackParser message, ?_, fallback_intent_mem message⟩
            show (if parsed.intent = "unknown" then Except.ok (localFallbackParser message)
              else Except.ok parsed) = Except.ok (localFallbackParser message)
            rw [if_pos hu]
          · refine ⟨parsed, ?_, ?_⟩
            · show (if parsed.intent = "unknown" then Except.ok (localFallbackParser message)
                else Except.ok parsed) = Except.ok parsed
              rw [if_neg hu]
            · exact structurallyValid_of_norm parsed (safeParse_some_invariant raw parsed hs)
  · intro e he
    rw [he]
    rfl
  · intro raw e hr hs
    rw [hr, analyzeMessage_ok_eq, hs]

/-- C2 witness: at a concrete failing primary outcome the fallback result is
returned. -/
theorem analyzeMessage_total_witness :
    analyzeMessage (Except.error PyExn.httpStatusError) "hello" =
      Except.ok (localFallbackParser "hello") :=
  (analyzeMessage_total_and_structurally_valid
    (Except.error PyExn.httpStatusError) "hello").2.1 PyExn.httpStatusError rfl

/-- C3 counterexample: the invariant as stated fails twice on the code. The
normalizer stores min_rating inf (coerced from the string inf) although the
claim requires a finite float, and the fallback parser returns the empty
string as entity for the message price of-space-space-question-mark although
the claim requires empty entities to collapse to absent. -/
theorem normalizer_and_fallback_violate_stated_invariant :
    normalizeParsed (PyVal.dict
        [("intent", PyVal.str "rating_filter"), ("entity", PyVal.none),
         ("criteria", PyVal.dict [("min_rating", PyVal.str "inf")])]) =
      Except.ok ⟨"rating_filter", Option.none,
        some [("min_rating", PyVal.float PyFloat.inf)]⟩ ∧
    invariantStatedB ⟨"rating_filter", Option.none,
      some [("min_rating", PyVal.float PyFloat.inf)]⟩ = false ∧
    localFallbackParser "price of  ?" = ⟨"price_query", some "", Option.none⟩ ∧
    invariantStatedB ⟨"price_query", some "", Option.none⟩ = false :=
  ⟨rfl, rfl, rfl, rfl⟩

/-- C3 amended: every normalizer result has intent in the six-value set, a
non-empty trimmed entity or none, and a min_rating that is a float (possibly
non-finite) or null; normalization of any dict succeeds; and every fallback
result has intent in the set, a trimmed (possibly empty) entity or none, and
a float-or-null min_rating. -/
theorem intent_result_amended_invariant :
    (∀ p r, normalizeParsed p = Except.ok r → invariantNormB r = true) ∧
    (∀ kvs, ∃ r, normalizeParsed (PyVal.dict kvs) = Except.ok r) ∧
    (∀ message, invariantFallbackB (localFallbackParser message) = true) :=
  ⟨norm_invariant, fun kvs => ⟨⟨normIntent kvs, normEntity kvs, normCriteria kvs⟩, rfl⟩,
    fallback_invariant⟩

/-- C3 witness: the amended invariant evaluated at a concrete normalizer
input and a concrete fallback message. -/
theorem intent_result_amended_invariant_witness :
    invariantNormB ⟨"availability", Option.none, Option.none⟩ = true ∧
    invariantFallbackB (localFallbackParser "hello there") = true :=
  ⟨intent_result_amended_invariant.1 (PyVal.dict [("intent", PyVal.str "availability")])
      ⟨"availability", Option.none, Option.none⟩ rfl,
    intent_result_amended_invariant.2.2 "hello there"⟩

/-- C4 counterexample: on text whose first balanced object is followed by a
later close brace, the code extracts the greedy first-open-to-last-close span
and fails to parse it, returning no result, while the claimed
first-balanced-substring reading parses the object successfully. -/
theorem safeParse_greedy_not_balanced_counterexample :
    safeParseResult
        "x\x7b\"intent\": \"price_query\", \"entity\": null, \"criteria\": null\x7d y\x7d" =
      Except.ok Option.none ∧
    claimedSafeParseResult
        "x\x7b\"intent\": \"price_query\", \"entity\": null, \"criteria\": null\x7d y\x7d" =
      Except.ok (some ⟨"price_query", Option.none, Option.none⟩) :=
  ⟨rfl, rfl⟩

/-- C4 amended: the parse pipeline tries the whole text as one JSON value and
otherwise parses the span from the first open brace to the last close brace
of the text (the greedy regex span, not the first balanced substring); when
both fail the primary result is unavailable. -/
theorem safeParse_amended_pipeline (raw : String) :
    safeParseResult raw = amendedSafeParseResult raw := by
  unfold safeParseResult amendedSafeParseResult
  cases hj : jsonLoads raw with
  | some parsed => rfl
  | none => rw [greedy_eq_specSpan]

/-- C4 witness for the amended pipeline at a concrete input. -/
theorem safeParse_amended_pipeline_witness :
    safeParseResult "no json here" = amendedSafeParseResult "no json here" :=
  safeParse_amended_pipeline "no json here"

/-- C5: whenever the primary path succeeds and parses to a result whose
intent is unknown, analyze_message returns exactly the local fallback
parser's result for the same message. -/
theorem analyze_unknown_primary_returns_fallback (raw message : String) (r : IntentResult)
    (h1 : safeParseResult raw = Except.ok (some r)) (h2 : r.intent = "unknown") :
    analyzeMessage (Except.ok raw) message = Except.ok (localFallbackParser message) := by
  rw [analyzeMessage_ok_eq, h1]
  show (if r.intent = "unknown" then Except.ok (localFallbackParser message)
    else Except.ok r) = Except.ok (localFallbackParser message)
  rw [if_pos h2]

/-- C5 witness: a concrete model reply parsing to intent unknown makes
analyze return the fallback result. -/
theorem analyze_unknown_primary_returns_fallback_witness :
    analyzeMessage
        (Except.ok "\x7b\"intent\": \"unknown\", \"entity\": null, \"criteria\": null\x7d") "hi" =
      Except.ok (localFallbackParser "hi") :=
  analyze_unknown_primary_returns_fallback _ "hi" ⟨"unknown", Option.none, Option.none⟩ rfl rfl

/-- C6: the claim says the rating_filter branch defaults min_rating to 4.0
also when criteria is null and never raises. The code defaults the absent
key to an empty dict but keeps a present null criteria, whose .get raises
AttributeError; with an empty criteria dict the 4.0 default is applied. -/
theorem gatherStrategy_null_criteria_raises :
    gatherStrategy [("intent", PyVal.str "rating_filter"), ("entity", PyVal.none),
        ("criteria", PyVal.none)] = Except.error PyExn.attributeError ∧
    gatherStrategy [("intent", PyVal.str "rating_filter"), ("entity", PyVal.none),
        ("criteria", PyVal.dict [])] =
      Except.ok (GatherAction.filterByRating (PyVal.float (PyFloat.finite 4))) :=
  ⟨rfl, rfl⟩

/-- C7 counterexample: a record with rating 0.0 satisfies the claimed
present-and-at-least predicate at minimum 0, but the code's truthiness test
drops it. -/
theorem filterByRating_zero_rating_counterexample :
    filterProductsByRating [zeroRatedProduct] 0 5 = [] ∧
    claimedFilterByRating [zeroRatedProduct] 0 5 = [zeroRatedProduct] :=
  ⟨rfl, rfl⟩

/-- C7 amended: the filter retains exactly the records whose rating is
present, nonzero and at least the minimum, returns at most limit of them,
and preserves the listing order (the result is a sublist of the input). -/
theorem filterByRating_amended (allProducts : List Product) (minRating : ℚ) (limit : ℕ) :
    filterProductsByRating allProducts minRating limit =
      (allProducts.filter (amendedRatingKeepB minRating)).take limit ∧
    (filterProductsByRating allProducts minRating limit).length ≤ limit ∧
    (filterProductsByRating allProducts minRating limit).Sublist allProducts := by
  have hpt : ∀ p ∈ allProducts, ratingTruthyGeB minRating p = amendedRatingKeepB minRating p := by
    intro p _
    unfold ratingTruthyGeB amendedRatingKeepB
    cases hr : p.rating with
    | none => rfl
    | some r =>
      by_cases h : r = 0
      · simp [h]
      · simp [h]
  refine ⟨?_, ?_, ?_⟩
  · unfold filterProductsByRating
    rw [List.filter_congr hpt]
  · exact List.length_take_le _ _
  · exact (List.take_sublist _ _).trans (List.filter_sublist _)

/-- C8 counterexample: on the message the claim fixes, the availability
alternative do-you-have matches first, so the captured entity is any
laptops, not laptops. -/
theorem fallback_availability_entity_counterexample :
    localFallbackParser "Do you have any laptops?" ≠
      (⟨"availability", some "laptops", Option.none⟩ : IntentResult) := by
  intro h
  have h2 := congrArg IntentResult.entity h
  rw [show (localFallbackParser "Do you have any laptops?").entity = some "any laptops"
    from rfl] at h2
  exact absurd h2 (by decide)

/-- C8 amended: the fallback parser maps the message to availability with
entity any laptops and null criteria. -/
theorem fallback_availability_entity_amended :
    localFallbackParser "Do you have any laptops?" =
      ⟨"availability", some "any laptops", Option.none⟩ :=
  rfl

lemma normIntent_of_contains (intent : String) (eV cV : PyVal)
    (hint : sixIntents.contains intent = true) :
    normIntent [("intent", PyVal.str intent), ("entity", eV), ("criteria", cV)] = intent := by
  show (if sixIntents.contains intent = true then intent else "unknown") = intent
  rw [if_pos hint]

lemma normEntity_none_entry (intent : String) (cV : PyVal) :
    normEntity [("intent", PyVal.str intent), ("entity", PyVal.none), ("criteria", cV)] =
      Option.none := rfl

lemma normEntity_some_entry (intent : String) (cV : PyVal) (s : String)
    (hne : s ≠ "") (hs : pyStrip s = s) :
    normEntity [("intent", PyVal.str intent), ("entity", PyVal.str s), ("criteria", cV)] =
      some s := by
  show (if pyStrip s = "" then Option.none else some (pyStrip s)) = some s
  rw [hs, if_neg hne]

lemma normCriteria_none_entry (intent : String) (eV : PyVal) :
    normCriteria [("intent", PyVal.str intent), ("entity", eV), ("criteria", PyVal.none)] =
      Option.none := rfl

lemma normCriteria_dict_entry (intent : String) (eV : PyVal) (kvs : List (String × PyVal))
    (hok : minRatingValOkB (dictGet kvs "min_rating") = true) :
    normCriteria [("intent", PyVal.str intent), ("entity", eV), ("criteria", PyVal.dict kvs)] =
      some kvs := by
  show (if kvs.isEmpty = true then some kvs
    else
      match dictGet kvs "min_rating" with
      | some v =>
        some (dictSet kvs "min_rating"
          (match pyFloatCoerce v with
           | some f => PyVal.float f
           | Option.none => PyVal.none))
      | Option.none => some kvs) = some kvs
  by_cases hemp : kvs.isEmpty
  · rw [if_pos hemp]
  · rw [if_neg hemp]
    cases hget : dictGet kvs "min_rating" with
    | none => rfl
    | some v =>
      rw [hget] at hok
      cases v with
      | float f => exact congrArg some (dictGet_dictSet_self kvs "min_rating" (PyVal.float f) hget)
      | none => exact congrArg some (dictGet_dictSet_self kvs "min_rating" PyVal.none hget)
      | bool b => simp [minRatingValOkB] at hok
      | int n => simp [minRatingValOkB] at hok
      | str s => simp [minRatingValOkB] at hok
      | list xs => simp [minRatingValOkB] at hok
      | dict kvs2 => simp [minRatingValOkB] at hok

/-- C9: the normalizer is idempotent on already-normalized results: intent in
the six-value set, entity a non-empty trimmed string or absent, and a
present min_rating a float or null, so feeding the re-encoded result back
returns it unchanged. -/
theorem normalizeParsed_idempotent (r : IntentResult) (h : normalizedFormB r = true) :
    normalizeParsed (intentResultToPyVal r) = Except.ok r := by
  obtain ⟨intent, entity, criteria⟩ := r
  unfold normalizedFormB at h
  rw [Bool.and_eq_true, Bool.and_eq_true] at h
  obtain ⟨⟨hint, hent⟩, hcrit⟩ := h
  cases entity with
  | none =>
    cases criteria with
    | none =>
      simp only [intentResultToPyVal, normalizeParsed]
      rw [normIntent_of_contains _ _ _ hint, normEntity_none_entry, normCriteria_none_entry]
    | some kvs =>
      simp only [intentResultToPyVal, normalizeParsed]
      rw [normIntent_of_contains _ _ _ hint, normEntity_none_entry,
        normCriteria_dict_entry _ _ _ hcrit]
  | some s =>
    have h' : (!(s == "") && (pyStrip s == s)) = true := hent
    rw [Bool.and_eq_true] at h'
    have hne : s ≠ "" := by simpa using h'.1
    have hs : pyStrip s = s := by simpa using h'.2
    cases criteria with
    | none =>
      simp only [intentResultToPyVal, normalizeParsed]
      rw [normIntent_of_contains _ _ _ hint, normEntity_some_entry _ _ _ hne hs,
        normCriteria_none_entry]
    | some kvs =>
      simp only [intentResultToPyVal, normalizeParsed]
      rw [normIntent_of_contains _ _ _ hint, normEntity_some_entry _ _ _ hne hs,
        normCriteria_dict_entry _ _ _ hcrit]

/-- C9 witness: idempotence at a concrete normalized result. -/
theorem normalizeParsed_idempotent_witness :
    normalizeParsed (intentResultToPyVal ⟨"price_query", some "iphone",
        some [("min_rating", PyVal.float (PyFloat.finite 4))]⟩) =
      Except.ok ⟨"price_query", some "iphone",
        some [("min_rating", PyVal.float (PyFloat.finite 4))]⟩ :=
  normalizeParsed_idempotent _ rfl

/-- C10: with a listing holding a record whose optional category is absent
and whose title and description do not match, the case-insensitive substring
filter of get_product_by_name lowercases the missing category and raises
AttributeError instead of returning the matches among the other records. -/
theorem getProductByName_missing_category_raises :
    getProductByName [uncategorizedProduct, smartphoneProduct] "Phone" 5 =
      Except.error PyExn.attributeError :=
  rfl
